import Mathlib

/-!
# Verification of the ChromaDetect video-processing orchestration layer

Shallow embedding of `src/js/src/video-processor.ts` (class `VideoProcessor`).
JavaScript numbers are embedded as exact rationals (`ℚ`); the decimal literals
`0.4`, `0.1`, `0.9`, `0.3`, `0.7` of the source become the rationals `2/5`,
`1/10`, `9/10`, `3/10`, `7/10`, and `Math.floor` on a non-negative quantity
becomes natural-number division.  Asynchronous outcomes (load success/error/
timeout, readiness, per-frame extraction results, the consensus value of the engine) are supplied by an explicit environment, and the side effects of one
`detectFromVideo` call (engine calls, object-URL allocation and release) are
recorded in a run log.
-/

namespace ChromaDetect

/-- The `sampleStrategy` field of `VideoConfig` (`types.ts`). -/
inductive SampleStrategy
  | uniform
  | keyframes
deriving DecidableEq, Repr

/-- Embedding of `VideoConfig` (`types.ts`), with the defaults applied by
`detectFromVideo` (`frameSampleCount = 8`, `sampleStrategy = uniform`,
`maxDuration = 30`). -/
structure VideoConfig where
  frameSampleCount : ℕ := 8
  sampleStrategy : SampleStrategy := .uniform
  maxDuration : ℚ := 30
deriving DecidableEq, Repr

/-- Embedding of `DetectionConfig` (`types.ts`): the sensitivity options forwarded to the
`set_config` call of the engine. -/
structure DetectionConfig where
  minAreaPercentage : Option ℚ := none
  minSaturation : Option ℚ := none
  edgeSamplePercentage : Option ℚ := none
  confidenceThreshold : Option ℚ := none
deriving DecidableEq, Repr

/-- Embedding of `ChromakeyResult` (`types.ts`): the aggregated detection output. -/
structure ChromakeyResult where
  r : ℚ
  g : ℚ
  b : ℚ
  confidence : ℚ
  coverage : ℚ
  hue : ℚ
deriving DecidableEq, Repr

/-- Embedding of `VideoProcessor.calculateFrameTimestamps` (`video-processor.ts`,
lines 83–123), embedded over exact rationals.  `Math.floor(count * 0.4)`
on a natural `count` is `count * 2 / 5` in natural division, and the JavaScript
`Array.prototype.sort` with comparator `(a, b) => a - b` is a stable
ascending sort, embedded as `List.insertionSort (· ≤ ·)`. -/
def calculateFrameTimestamps (duration : ℚ) (count : ℕ)
    (strategy : SampleStrategy) (maxDuration : ℚ) : List ℚ :=
  let effectiveDuration := min duration maxDuration
  match strategy with
  | .uniform =>
    let interval := effectiveDuration / ((count : ℚ) + 1)
    (List.range count).map (fun i : ℕ => ((i : ℚ) + 1) * interval)
  | .keyframes =>
    let earlyCount := count * 2 / 5
    let early := (List.range earlyCount).map
      (fun i : ℕ => effectiveDuration * (1/10) * (i : ℚ) / (earlyCount : ℚ))
    let lateStart := effectiveDuration * (9/10)
    let late := (List.range earlyCount).map
      (fun i : ℕ => lateStart + effectiveDuration * (1/10) * (i : ℚ) / (earlyCount : ℚ))
    let middleCount := count - earlyCount * 2
    let middleStart := effectiveDuration * (3/10)
    let middleEnd := effectiveDuration * (7/10)
    let middle := (List.range middleCount).map
      (fun i : ℕ => middleStart + (middleEnd - middleStart) * (i : ℚ) / (middleCount : ℚ))
    List.insertionSort (· ≤ ·) (early ++ late ++ middle)

/-- The value `effectiveDuration` as computed at the top of
`calculateFrameTimestamps`. -/
def effectiveDuration (duration maxDuration : ℚ) : ℚ := min duration maxDuration

/-- The `earlyCount` of the keyframes branch: `Math.floor(count * 0.4)`. -/
def earlyCount (count : ℕ) : ℕ := count * 2 / 5

/-- The "40% of samples from first 10%" group pushed by the keyframes
branch, in push order. -/
def earlyTimestamps (duration maxDuration : ℚ) (count : ℕ) : List ℚ :=
  (List.range (earlyCount count)).map
    (fun i : ℕ => effectiveDuration duration maxDuration * (1/10) * (i : ℚ) /
      ((earlyCount count : ℕ) : ℚ))

/-- The "40% from last 10%" group pushed by the keyframes branch. -/
def lateTimestamps (duration maxDuration : ℚ) (count : ℕ) : List ℚ :=
  (List.range (earlyCount count)).map
    (fun i : ℕ => effectiveDuration duration maxDuration * (9/10) +
      effectiveDuration duration maxDuration * (1/10) * (i : ℚ) /
        ((earlyCount count : ℕ) : ℚ))

/-- The "20% from middle" group pushed by the keyframes branch:
`middleStart + (middleEnd - middleStart) * i / middleCount` for
`i = 0 .. middleCount - 1`, with `middleCount = count - 2 * earlyCount`,
`middleStart = 0.3 * effectiveDuration`, `middleEnd = 0.7 *
effectiveDuration`. -/
def middleTimestamps (duration maxDuration : ℚ) (count : ℕ) : List ℚ :=
  (List.range (count - earlyCount count * 2)).map
    (fun i : ℕ => effectiveDuration duration maxDuration * (3/10) +
      (effectiveDuration duration maxDuration * (7/10) -
        effectiveDuration duration maxDuration * (3/10)) * (i : ℚ) /
      ((count - earlyCount count * 2 : ℕ) : ℚ))

/-- The pixel payload produced by `ctx.getImageData` in `extractFrame`:
raw bytes plus dimensions.  `add_video_frame` receives exactly these bytes
(the `Uint8Array` view over `imageData.data.buffer`). -/
structure ImageData where
  width : ℕ
  height : ℕ
  data : List ℕ
deriving DecidableEq, Repr

/-- The state of an `HTMLVideoElement` as far as `detectFromVideo` observes
it: its reported `duration`, its `readyState`, and whether its `src` is a
`blob:` URL (the `video.src.startsWith` test against `blob:` in the `finally`
block). -/
structure VideoState where
  duration : ℚ
  readyState : ℕ
  srcIsBlob : Bool
deriving DecidableEq, Repr

/-- The errors `VideoProcessor` can throw: the not-initialized guard error
(`detectFromVideo` line 26), the load-failure and load-timeout rejections
of `loadVideoFile`, and the load-error and load-timeout rejections of
`ensureVideoReady`. -/
inductive DetectError
  | notInitialized
  | loadFailed
  | loadTimeout
  | videoLoadError
  | videoReadyTimeout
deriving DecidableEq, Repr

/-- How the asynchronous wait inside `loadVideoFile` settles: the
`canplaythrough` event fires (yielding a video whose duration and
readyState the host determines), the `error` event fires, or the
30-second timer fires first. -/
inductive LoadOutcome
  | canplaythrough (duration : ℚ) (readyState : ℕ)
  | errorEvent
  | timeout
deriving DecidableEq, Repr

/-- How the wait inside `ensureVideoReady` settles when the video is not
already at `readyState ≥ 4`. -/
inductive ReadyOutcome
  | canplaythrough
  | errorEvent
  | timeout
deriving DecidableEq, Repr

/-- Environment resolving every asynchronous choice made by the host during
one `detectFromVideo` call: the load outcome for a `File` source, the
readiness outcome, the per-frame extraction oracle (`none` means the seek
failed or timed out and `extractFrame` rejected), and the value the engine
returns from `get_video_consensus`. -/
structure Env where
  loadOutcome : LoadOutcome
  readyOutcome : ReadyOutcome
  extract : ℚ → Option ImageData
  consensus : Option ChromakeyResult

/-- The source argument of `detectFromVideo`: an already-constructed
`HTMLVideoElement`, or a `File` (whose eventual element is described by the `loadOutcome`
of the environment). -/
inductive Source
  | element (video : VideoState)
  | file
deriving Repr

/-- The `VideoProcessor` instance fields: `detector` (the WASM engine
handle, opaque here) and `initialized`. -/
structure Processor where
  detector : Option Unit
  initialized : Bool
deriving DecidableEq, Repr

/-- One observable engine interaction issued by `detectFromVideo`.
`addFrame` records the loop timestamp at which the frame was extracted
together with the submitted pixel payload. -/
inductive EngineEvent
  | startSession
  | addFrame (timestamp : ℚ) (img : ImageData)
  | getConsensus
deriving DecidableEq, Repr

/-- The engine call made by `setConfig`. -/
inductive EngineCall
  | setConfigCall (config : DetectionConfig)
deriving DecidableEq, Repr

/-- Everything observable about one `detectFromVideo` call: the ordered
engine interactions, how many object URLs were created
(`URL.createObjectURL`) and released (`URL.revokeObjectURL`), and the
returned value or thrown error. -/
structure RunLog where
  engineEvents : List EngineEvent
  urlsCreated : ℕ
  urlsRevoked : ℕ
  result : Except DetectError (Option ChromakeyResult)
deriving Repr

/-- Embedding of `VideoProcessor.setConfig` (lines 16–20): forwards to
`detector.set_config` only when `detector` is non-null; the instance state
is never modified and no error is possible.  Returns the (unchanged)
processor and the list of engine calls issued. -/
def setConfig (p : Processor) (config : DetectionConfig) :
    Except DetectError (Processor × List EngineCall) :=
  match p.detector with
  | some _ => .ok (p, [.setConfigCall config])
  | none => .ok (p, [])

/-- Embedding of `VideoProcessor.loadVideoFile` (lines 200–235): creates one object URL,
then settles on the first of `canplaythrough` (resolve with the element,
whose `src` is the blob URL), `error` (revoke the URL, reject), or the
30-second timeout (revoke the URL, reject).  The result records URL
creations/releases performed inside this promise. -/
def loadVideoFile (env : Env) : ℕ × ℕ × Except DetectError VideoState :=
  match env.loadOutcome with
  | .canplaythrough d rs => (1, 0, .ok { duration := d, readyState := rs, srcIsBlob := true })
  | .errorEvent => (1, 1, .error .loadFailed)
  | .timeout => (1, 1, .error .loadTimeout)

/-- Embedding of `VideoProcessor.ensureVideoReady` (lines 125–160): resolves immediately
when `readyState ≥ 4`, otherwise settles on the first of `canplaythrough`
(resolve), `error` (reject), or the 30-second timeout (reject). -/
def ensureVideoReady (video : VideoState) (env : Env) : Except DetectError Unit :=
  if 4 ≤ video.readyState then .ok ()
  else
    match env.readyOutcome with
    | .canplaythrough => .ok ()
    | .errorEvent => .error .videoLoadError
    | .timeout => .error .videoReadyTimeout

/-- Embedding of `VideoProcessor.extractFrame` (lines 162–198) as the frame loop sees
it: either an `ImageData` or a per-frame failure, resolved by the
oracle of the environment. -/
def extractFrame (env : Env) (timestamp : ℚ) : Option ImageData :=
  env.extract timestamp

/-- The frame loop of `detectFromVideo` (lines 54–70): for each timestamp
in order, attempt extraction; on success submit
`add_video_frame(pixelData, width, height)`; on failure log a warning and
continue. -/
def processPlan (env : Env) (timestamps : List ℚ) : List EngineEvent :=
  timestamps.filterMap
    (fun t => (extractFrame env t).map (fun img => EngineEvent.addFrame t img))

/-- The `try … finally` body of `detectFromVideo` (lines 38–80), entered
with the resolved video element and the URL counts accumulated so far.
The `finally` block revokes the object URL exactly when the source was a
`File` and the `src` of the element is a blob URL, on the error path and the
normal path alike. -/
def detectBody (video : VideoState) (isFile : Bool) (created revoked : ℕ)
    (cfg : VideoConfig) (env : Env) : RunLog :=
  let cleanup : ℕ := if isFile && video.srcIsBlob then 1 else 0
  match ensureVideoReady video env with
  | .error e =>
      { engineEvents := [], urlsCreated := created,
        urlsRevoked := revoked + cleanup, result := .error e }
  | .ok _ =>
      let timestamps := calculateFrameTimestamps video.duration
        cfg.frameSampleCount cfg.sampleStrategy cfg.maxDuration
      { engineEvents :=
          EngineEvent.startSession :: processPlan env timestamps
            ++ [EngineEvent.getConsensus],
        urlsCreated := created, urlsRevoked := revoked + cleanup,
        result := .ok env.consensus }

/-- Embedding of `VideoProcessor.detectFromVideo` (lines 22–81): guard on `detector`,
resolve the source (loading a `File` via `loadVideoFile`, outside the
`try` block), then run the `try … finally` body. -/
def detectFromVideo (p : Processor) (source : Source) (cfg : VideoConfig)
    (env : Env) : RunLog :=
  match p.detector with
  | none =>
      { engineEvents := [], urlsCreated := 0, urlsRevoked := 0,
        result := .error .notInitialized }
  | some _ =>
      match source with
      | .element video => detectBody video false 0 0 cfg env
      | .file =>
          match loadVideoFile env with
          | (c, r, .error e) =>
              { engineEvents := [], urlsCreated := c, urlsRevoked := r,
                result := .error e }
          | (c, r, .ok video) => detectBody video true c r cfg env

/-- Timestamps of the frames actually submitted to the engine, in
submission order. -/
def submittedTimestamps (events : List EngineEvent) : List ℚ :=
  events.filterMap
    (fun e => match e with
      | .addFrame t _ => some t
      | _ => none)

/-! ### Listener bookkeeping at the suspension points

Each promise in `ensureVideoReady`, `extractFrame` and `loadVideoFile`
registers listeners on the video element and settles on the first of a
success signal, an error signal, or its timeout.  The machines below
replay, branch by branch, exactly the `addEventListener` /
`removeEventListener` calls the source performs, and report the listeners
still attached when the promise settles.  `removeEventListener` on a
listener that is not attached is a DOM no-op, matching truncated
subtraction. -/

/-- Count of listeners attached to the video element, per event name,
for the registrations of one suspension point. -/
structure ListenerSet where
  canplaythrough : ℕ
  seeked : ℕ
  error : ℕ
deriving DecidableEq, Repr

def ListenerSet.empty : ListenerSet :=
  { canplaythrough := 0, seeked := 0, error := 0 }

def addCanplaythroughListener (ls : ListenerSet) : ListenerSet :=
  { ls with canplaythrough := ls.canplaythrough + 1 }

def addSeekedListener (ls : ListenerSet) : ListenerSet :=
  { ls with seeked := ls.seeked + 1 }

def addErrorListener (ls : ListenerSet) : ListenerSet :=
  { ls with error := ls.error + 1 }

def removeCanplaythroughListener (ls : ListenerSet) : ListenerSet :=
  { ls with canplaythrough := ls.canplaythrough - 1 }

def removeSeekedListener (ls : ListenerSet) : ListenerSet :=
  { ls with seeked := ls.seeked - 1 }

def removeErrorListener (ls : ListenerSet) : ListenerSet :=
  { ls with error := ls.error - 1 }

/-- Which signal settles the promise of a suspension point first. -/
inductive WaitSignal
  | success
  | errorSignal
  | timeout
deriving DecidableEq, Repr

/-- Wait of `ensureVideoReady` (lines 133–155), for a video that was not
already ready: registers `canplaythrough` and `error` listeners; each of
the three resolution branches removes both listeners before settling.
Returns the listeners still attached at settlement. -/
def ensureVideoReadyListeners (signal : WaitSignal) : ListenerSet :=
  let ls := addErrorListener (addCanplaythroughListener ListenerSet.empty)
  match signal with
  | .success => removeErrorListener (removeCanplaythroughListener ls)
  | .errorSignal => removeErrorListener (removeCanplaythroughListener ls)
  | .timeout => removeErrorListener (removeCanplaythroughListener ls)

/-- Wait of `extractFrame` (lines 170–196): registers `seeked` and `error`
listeners; `onSeeked` removes only the `seeked` listener (line 176),
`onError` removes only the `seeked` listener (line 182), and only the
timeout branch removes both (lines 193–194).  Returns the listeners still
attached at settlement. -/
def extractFrameListeners (signal : WaitSignal) : ListenerSet :=
  let ls := addErrorListener (addSeekedListener ListenerSet.empty)
  match signal with
  | .success => removeSeekedListener ls
  | .errorSignal => removeSeekedListener ls
  | .timeout => removeErrorListener (removeSeekedListener ls)

/-- Wait of `loadVideoFile` (lines 209–233): registers `canplaythrough` and
`error` listeners; all three resolution branches remove both. -/
def loadVideoFileListeners (signal : WaitSignal) : ListenerSet :=
  let ls := addErrorListener (addCanplaythroughListener ListenerSet.empty)
  match signal with
  | .success => removeErrorListener (removeCanplaythroughListener ls)
  | .errorSignal => removeErrorListener (removeCanplaythroughListener ls)
  | .timeout => removeErrorListener (removeCanplaythroughListener ls)

/-- The condition under which `detectFromVideo` reaches the frame loop:
source resolution succeeds (for a `File`, `loadVideoFile` resolves) and
`ensureVideoReady` resolves on the resolved element. -/
def loadAndReadySucceed (source : Source) (env : Env) : Prop :=
  match source with
  | .element video => ensureVideoReady video env = .ok ()
  | .file =>
      match env.loadOutcome with
      | .canplaythrough d rs =>
          ensureVideoReady { duration := d, readyState := rs, srcIsBlob := true }
            env = .ok ()
      | .errorEvent => False
      | .timeout => False

/-- The duration of the video element `detectFromVideo` operates on, once
the source has resolved: the duration of the element itself, or the duration the
host reports for the element `loadVideoFile` constructed. -/
def resolvedDuration (source : Source) (env : Env) : ℚ :=
  match source with
  | .element video => video.duration
  | .file =>
      match env.loadOutcome with
      | .canplaythrough d _ => d
      | .errorEvent => 0
      | .timeout => 0

/-- A concrete environment: the file loads (duration 10, readyState 4,
i.e. already fully buffered), every frame extraction fails, and the engine
reports no confident consensus. -/
def sampleEnvAllFail : Env :=
  { loadOutcome := .canplaythrough 10 4,
    readyOutcome := .canplaythrough,
    extract := fun _ => none,
    consensus := none }

/-! ## Basic unfolding lemmas -/

lemma uniform_eq (duration maxDuration : ℚ) (count : ℕ) :
    calculateFrameTimestamps duration count .uniform maxDuration =
      (List.range count).map
        (fun i : ℕ => ((i : ℚ) + 1) *
          (min duration maxDuration / ((count : ℚ) + 1))) :=
  rfl

lemma keyframes_eq (duration maxDuration : ℚ) (count : ℕ) :
    calculateFrameTimestamps duration count .keyframes maxDuration =
      List.insertionSort (· ≤ ·)
        (earlyTimestamps duration maxDuration count ++
          lateTimestamps duration maxDuration count ++
          middleTimestamps duration maxDuration count) :=
  rfl

lemma earlyCount_two_mul_le (count : ℕ) : earlyCount count * 2 ≤ count := by
  have h := Nat.div_mul_le_self (count * 2) 5
  unfold earlyCount
  omega

lemma earlyCount_pos {count : ℕ} (hc : 3 ≤ count) : 1 ≤ earlyCount count := by
  unfold earlyCount
  have h5 : (0:ℕ) < 5 := by norm_num
  rw [Nat.le_div_iff_mul_le h5]
  omega

lemma effectiveDuration_pos {duration maxDuration : ℚ} (hd : 0 < duration)
    (hm : 0 < maxDuration) : 0 < effectiveDuration duration maxDuration :=
  lt_min hd hm

lemma scaled_index_bounds {a : ℚ} (ha : 0 < a) {i n : ℕ} (hi : i < n) :
    0 ≤ a * (i : ℚ) / (n : ℚ) ∧ a * (i : ℚ) / (n : ℚ) < a := by
  have hn : (0:ℚ) < (n : ℚ) := by
    exact_mod_cast Nat.pos_of_ne_zero (by omega)
  constructor
  · positivity
  · rw [mul_div_assoc]
    calc a * ((i : ℚ) / (n : ℚ)) < a * 1 := by
          apply mul_lt_mul_of_pos_left _ ha
          rw [div_lt_one hn]
          exact_mod_cast hi
      _ = a := mul_one a

lemma mem_earlyTimestamps_bounds {duration maxDuration : ℚ} {count : ℕ}
    (hd : 0 < duration) (hm : 0 < maxDuration) {t : ℚ}
    (ht : t ∈ earlyTimestamps duration maxDuration count) :
    0 ≤ t ∧ t < effectiveDuration duration maxDuration * (1/10) := by
  have heff := effectiveDuration_pos hd hm
  simp only [earlyTimestamps, List.mem_map, List.mem_range] at ht
  obtain ⟨i, hi, rfl⟩ := ht
  exact scaled_index_bounds (by positivity) hi

lemma mem_lateTimestamps_bounds {duration maxDuration : ℚ} {count : ℕ}
    (hd : 0 < duration) (hm : 0 < maxDuration) {t : ℚ}
    (ht : t ∈ lateTimestamps duration maxDuration count) :
    effectiveDuration duration maxDuration * (9/10) ≤ t ∧
      t < effectiveDuration duration maxDuration := by
  have heff := effectiveDuration_pos hd hm
  simp only [lateTimestamps, List.mem_map, List.mem_range] at ht
  obtain ⟨i, hi, rfl⟩ := ht
  have hb := scaled_index_bounds
    (show (0:ℚ) < effectiveDuration duration maxDuration * (1/10) by positivity) hi
  constructor
  · linarith [hb.1]
  · linarith [hb.2]

lemma mem_middleTimestamps_bounds {duration maxDuration : ℚ} {count : ℕ}
    (hd : 0 < duration) (hm : 0 < maxDuration) {t : ℚ}
    (ht : t ∈ middleTimestamps duration maxDuration count) :
    effectiveDuration duration maxDuration * (3/10) ≤ t ∧
      t < effectiveDuration duration maxDuration * (7/10) := by
  have heff := effectiveDuration_pos hd hm
  simp only [middleTimestamps, List.mem_map, List.mem_range] at ht
  obtain ⟨i, hi, rfl⟩ := ht
  have hgap : (0:ℚ) < effectiveDuration duration maxDuration * (7/10) -
      effectiveDuration duration maxDuration * (3/10) := by linarith
  have hb := scaled_index_bounds hgap hi
  constructor
  · linarith [hb.1]
  · linarith [hb.2]

/-- C1: for every `duration > 0`, `count ≥ 1` and `maxDuration > 0`, with
`effectiveDuration = min(duration, maxDuration)`, the uniform strategy
returns exactly `count` timestamps with
`timestamp_i = (i+1) * effectiveDuration / (count+1)`, strictly ascending,
each strictly inside `(0, effectiveDuration)`; and
`(duration = 100, count = 4, maxDuration = 10)` yields `[2, 4, 6, 8]` with
the cap applied before spacing. -/
theorem uniform_schedule_correct (duration maxDuration : ℚ) (count : ℕ)
    (hd : 0 < duration) (hc : 1 ≤ count) (hm : 0 < maxDuration) :
    (calculateFrameTimestamps duration count .uniform maxDuration).length = count ∧
    (∀ i, i < count →
      (calculateFrameTimestamps duration count .uniform maxDuration).getD i 0 =
        ((i : ℚ) + 1) * min duration maxDuration / ((count : ℚ) + 1)) ∧
    (calculateFrameTimestamps duration count .uniform maxDuration).Sorted (· < ·) ∧
    (∀ t ∈ calculateFrameTimestamps duration count .uniform maxDuration,
      0 < t ∧ t < min duration maxDuration) ∧
    calculateFrameTimestamps 100 4 .uniform 10 = [2, 4, 6, 8] := by
  have heff : 0 < min duration maxDuration := lt_min hd hm
  have hcpos : (0:ℚ) < (count : ℚ) + 1 := by positivity
  have hintpos : 0 < min duration maxDuration / ((count : ℚ) + 1) :=
    div_pos heff hcpos
  refine ⟨?_, ?_, ?_, ?_, ?_⟩
  · rw [uniform_eq, List.length_map, List.length_range]
  · intro i hi
    rw [uniform_eq, List.getD_eq_getElem?_getD, List.getElem?_map,
      List.getElem?_range hi]
    simp [mul_div_assoc]
  · rw [uniform_eq]
    refine List.Pairwise.map _ ?_ (List.pairwise_lt_range _)
    intro a b hab
    have h1 : (a:ℚ) + 1 < (b:ℚ) + 1 := by exact_mod_cast Nat.succ_lt_succ hab
    exact mul_lt_mul_of_pos_right h1 hintpos
  · intro t ht
    rw [uniform_eq] at ht
    simp only [List.mem_map, List.mem_range] at ht
    obtain ⟨i, hi, rfl⟩ := ht
    refine ⟨mul_pos (by positivity) hintpos, ?_⟩
    calc ((i:ℚ) + 1) * (min duration maxDuration / ((count : ℚ) + 1))
        < ((count:ℚ) + 1) * (min duration maxDuration / ((count : ℚ) + 1)) := by
          apply mul_lt_mul_of_pos_right _ hintpos
          exact_mod_cast Nat.succ_lt_succ hi
      _ = min duration maxDuration := by
          rw [mul_div_cancel₀]
          exact ne_of_gt hcpos
  · norm_num [calculateFrameTimestamps, List.range_succ]

/-- Witness for `uniform_schedule_correct`, instantiated at
`duration = 100`, `count = 4`, `maxDuration = 10`. -/
theorem uniform_schedule_correct_witness :
    (0:ℚ) < 100 ∧ 1 ≤ 4 ∧ (0:ℚ) < 10 ∧
    ((calculateFrameTimestamps 100 4 .uniform 10).Sorted (· < ·) ∧
      calculateFrameTimestamps 100 4 .uniform 10 = [2, 4, 6, 8]) :=
  ⟨by norm_num, by norm_num, by norm_num,
   (uniform_schedule_correct 100 10 4 (by norm_num) (by norm_num)
     (by norm_num)).2.2.1,
   (uniform_schedule_correct 100 10 4 (by norm_num) (by norm_num)
     (by norm_num)).2.2.2.2⟩

lemma uniform_example_eval :
    calculateFrameTimestamps 100 4 .uniform 10 = [2, 4, 6, 8] := by
  norm_num [calculateFrameTimestamps, List.range_succ]

lemma keyframes_example_eval :
    calculateFrameTimestamps 10 10 .keyframes 30 =
      [0, 1/4, 1/2, 3/4, 3, 5, 9, 37/4, 19/2, 39/4] := by
  norm_num [calculateFrameTimestamps, List.range_succ, List.insertionSort,
    List.orderedInsert]

/-- C4: for every `duration > 0`, `count ≥ 1` and `maxDuration > 0`, the
keyframes strategy returns exactly `count` timestamps, all within
`[0, effectiveDuration]`, sorted ascending; when `earlyCount =
floor(count * 0.4) = 0` every sample falls in the middle window; and
`(duration = 10, count = 10, maxDuration = 30)` yields a length-10
ascending list with first element `< 1.1` and element at index 6
`> 8.9`. -/
theorem keyframes_schedule_contract (duration maxDuration : ℚ) (count : ℕ)
    (hd : 0 < duration) (hc : 1 ≤ count) (hm : 0 < maxDuration) :
    (calculateFrameTimestamps duration count .keyframes maxDuration).length = count ∧
    (calculateFrameTimestamps duration count .keyframes maxDuration).Sorted (· ≤ ·) ∧
    (∀ t ∈ calculateFrameTimestamps duration count .keyframes maxDuration,
      0 ≤ t ∧ t ≤ effectiveDuration duration maxDuration) ∧
    (earlyCount count = 0 →
      ∀ t ∈ calculateFrameTimestamps duration count .keyframes maxDuration,
        effectiveDuration duration maxDuration * (3/10) ≤ t ∧
          t ≤ effectiveDuration duration maxDuration * (7/10)) ∧
    ((calculateFrameTimestamps 10 10 .keyframes 30).length = 10 ∧
      (calculateFrameTimestamps 10 10 .keyframes 30).Sorted (· ≤ ·) ∧
      (calculateFrameTimestamps 10 10 .keyframes 30).getD 0 0 < 11/10 ∧
      89/10 < (calculateFrameTimestamps 10 10 .keyframes 30).getD 6 0) := by
  have heff := effectiveDuration_pos hd hm
  have hperm := List.perm_insertionSort (α := ℚ) (· ≤ ·)
    (earlyTimestamps duration maxDuration count ++
      lateTimestamps duration maxDuration count ++
      middleTimestamps duration maxDuration count)
  refine ⟨?_, ?_, ?_, ?_, ?_⟩
  · rw [keyframes_eq, hperm.length_eq]
    simp only [List.length_append, earlyTimestamps, lateTimestamps,
      middleTimestamps, List.length_map, List.length_range]
    have h := earlyCount_two_mul_le count
    omega
  · rw [keyframes_eq]
    exact List.sorted_insertionSort _ _
  · intro t ht
    rw [keyframes_eq] at ht
    replace ht := hperm.mem_iff.mp ht
    rcases List.mem_append.mp ht with h | hmid
    · rcases List.mem_append.mp h with he | hl
      · have hb := mem_earlyTimestamps_bounds hd hm he
        refine ⟨hb.1, ?_⟩
        nlinarith [hb.2]
      · have hb := mem_lateTimestamps_bounds hd hm hl
        refine ⟨?_, hb.2.le⟩
        nlinarith [hb.1]
    · have hb := mem_middleTimestamps_bounds hd hm hmid
      refine ⟨?_, ?_⟩
      · nlinarith [hb.1]
      · nlinarith [hb.2]
  · intro h0 t ht
    rw [keyframes_eq] at ht
    replace ht := hperm.mem_iff.mp ht
    rcases List.mem_append.mp ht with h | hmid
    · exfalso
      rcases List.mem_append.mp h with he | hl
      · simp [earlyTimestamps, h0] at he
      · simp [lateTimestamps, h0] at hl
    · have hb := mem_middleTimestamps_bounds hd hm hmid
      exact ⟨hb.1, hb.2.le⟩
  · rw [keyframes_example_eval]
    refine ⟨by norm_num, ?_, by norm_num [List.getD], by norm_num [List.getD]⟩
    norm_num [List.sorted_cons]

/-- Witness for `keyframes_schedule_contract`, instantiated at
`duration = 10`, `count = 10`, `maxDuration = 30`. -/
theorem keyframes_schedule_contract_witness :
    (0:ℚ) < 10 ∧ 1 ≤ 10 ∧ (0:ℚ) < 30 ∧
    (calculateFrameTimestamps 10 10 .keyframes 30).length = 10 ∧
    89/10 < (calculateFrameTimestamps 10 10 .keyframes 30).getD 6 0 :=
  ⟨by norm_num, by norm_num, by norm_num,
   (keyframes_schedule_contract 10 30 10 (by norm_num) (by norm_num)
     (by norm_num)).2.2.2.2.1,
   (keyframes_schedule_contract 10 30 10 (by norm_num) (by norm_num)
     (by norm_num)).2.2.2.2.2.2.2⟩

/-- C10: for every `duration > 0`, `maxDuration > 0` and every `count` with
`floor(count * 0.4) ≥ 1` (i.e. `count ≥ 3`), the first
timestamp returned by the keyframes strategy is exactly `0`, while the uniform strategy never returns
the timestamp `0`. -/
theorem keyframes_samples_time_zero (duration maxDuration : ℚ) (count : ℕ)
    (hd : 0 < duration) (hm : 0 < maxDuration) (hc : 3 ≤ count) :
    (calculateFrameTimestamps duration count .keyframes maxDuration).head? =
      some 0 ∧
    0 ∉ calculateFrameTimestamps duration count .uniform maxDuration := by
  have heff := effectiveDuration_pos hd hm
  have hec := earlyCount_pos hc
  constructor
  · -- 0 is an element, every element is ≥ 0, and the list is sorted.
    have hmem : (0:ℚ) ∈ calculateFrameTimestamps duration count .keyframes maxDuration := by
      rw [keyframes_eq]
      have hperm := List.perm_insertionSort (α := ℚ) (· ≤ ·)
        (earlyTimestamps duration maxDuration count ++
          lateTimestamps duration maxDuration count ++
          middleTimestamps duration maxDuration count)
      rw [hperm.mem_iff]
      apply List.mem_append_left
      apply List.mem_append_left
      simp only [earlyTimestamps, List.mem_map, List.mem_range]
      exact ⟨0, by omega, by norm_num⟩
    have hnonneg : ∀ t ∈ calculateFrameTimestamps duration count .keyframes maxDuration,
        0 ≤ t := by
      intro t ht
      rw [keyframes_eq] at ht
      replace ht := (List.perm_insertionSort (α := ℚ) (· ≤ ·) _).mem_iff.mp ht
      rcases List.mem_append.mp ht with h | hmid
      · rcases List.mem_append.mp h with he | hl
        · exact (mem_earlyTimestamps_bounds hd hm he).1
        · have hb := mem_lateTimestamps_bounds hd hm hl
          nlinarith [hb.1]
      · have hb := mem_middleTimestamps_bounds hd hm hmid
        nlinarith [hb.1]
    have hsorted : (calculateFrameTimestamps duration count .keyframes maxDuration).Sorted
        (· ≤ ·) := by
      rw [keyframes_eq]
      exact List.sorted_insertionSort _ _
    cases hl : calculateFrameTimestamps duration count .keyframes maxDuration with
    | nil => rw [hl] at hmem; simp at hmem
    | cons a rest =>
      rw [hl] at hmem hnonneg hsorted
      have ha0 : 0 ≤ a := hnonneg a (List.mem_cons_self a rest)
      have hale : a ≤ 0 := by
        rcases List.mem_cons.mp hmem with h | h
        · exact le_of_eq h.symm
        · exact (List.sorted_cons.mp hsorted).1 0 h
      simp [le_antisymm hale ha0]
  · intro h0
    rw [uniform_eq] at h0
    simp only [List.mem_map, List.mem_range] at h0
    obtain ⟨i, hi, heq⟩ := h0
    have hpos : (0:ℚ) < ((i:ℚ) + 1) *
        (min duration maxDuration / ((count : ℚ) + 1)) := by
      apply mul_pos (by positivity)
      exact div_pos (lt_min hd hm) (by positivity)
    linarith [hpos, heq.ge]

/-- Witness for `keyframes_samples_time_zero`, instantiated at
`duration = 10`, `count = 10`, `maxDuration = 30`. -/
theorem keyframes_samples_time_zero_witness :
    (0:ℚ) < 10 ∧ (0:ℚ) < 30 ∧ 3 ≤ 10 ∧
    ((calculateFrameTimestamps 10 10 .keyframes 30).head? = some 0 ∧
      0 ∉ calculateFrameTimestamps 10 10 .uniform 30) :=
  ⟨by norm_num, by norm_num, by norm_num,
   keyframes_samples_time_zero 10 30 10 (by norm_num) (by norm_num)
     (by norm_num)⟩

/-- C5 counterexample: at `(duration = 10, count = 10, maxDuration = 30)`
there are `2` middle samples; were they evenly spaced across the closed
interval `[0.3 * effectiveDuration, 0.7 * effectiveDuration] = [3, 7]` with
both endpoints attainable they would include `7`, but the returned list
does not contain `7` (the code divides by `middleCount`, not
`middleCount - 1`, so the upper endpoint is never produced). -/
theorem keyframes_middle_closed_interval_counterexample :
    10 - earlyCount 10 * 2 = 2 ∧
    effectiveDuration 10 30 * (3/10) ∈
      calculateFrameTimestamps 10 10 .keyframes 30 ∧
    effectiveDuration 10 30 * (7/10) ∉
      calculateFrameTimestamps 10 10 .keyframes 30 := by
  refine ⟨by norm_num [earlyCount], ?_, ?_⟩
  · rw [keyframes_example_eval]
    norm_num [effectiveDuration]
  · rw [keyframes_example_eval]
    norm_num [effectiveDuration]

/-- C5 (amended): in the keyframes strategy, with `edgeCount =
floor(count * 0.4)`, exactly `edgeCount` of the returned timestamps are
evenly spaced points from `[0, 0.1 * effectiveDuration)`, exactly
`edgeCount` more from `[0.9 * effectiveDuration, effectiveDuration)`, and
the remaining `count - 2 * edgeCount` points are evenly spaced with step
`0.4 * effectiveDuration / middleCount` across the half-open interval
`[0.3 * effectiveDuration, 0.7 * effectiveDuration)` — the lower endpoint
is attained (whenever the middle group is non-empty) but the upper endpoint
`0.7 * effectiveDuration` is never attained — before the concatenation is
sorted ascending. -/
theorem keyframes_partition_amended (duration maxDuration : ℚ) (count : ℕ)
    (hd : 0 < duration) (hm : 0 < maxDuration) :
    (calculateFrameTimestamps duration count .keyframes maxDuration).Perm
      (earlyTimestamps duration maxDuration count ++
        lateTimestamps duration maxDuration count ++
        middleTimestamps duration maxDuration count) ∧
    (earlyTimestamps duration maxDuration count).length = earlyCount count ∧
    (lateTimestamps duration maxDuration count).length = earlyCount count ∧
    (middleTimestamps duration maxDuration count).length =
      count - earlyCount count * 2 ∧
    (∀ t ∈ earlyTimestamps duration maxDuration count,
      0 ≤ t ∧ t < effectiveDuration duration maxDuration * (1/10)) ∧
    (∀ t ∈ lateTimestamps duration maxDuration count,
      effectiveDuration duration maxDuration * (9/10) ≤ t ∧
        t < effectiveDuration duration maxDuration) ∧
    (∀ t ∈ middleTimestamps duration maxDuration count,
      effectiveDuration duration maxDuration * (3/10) ≤ t ∧
        t < effectiveDuration duration maxDuration * (7/10)) ∧
    (1 ≤ count - earlyCount count * 2 →
      effectiveDuration duration maxDuration * (3/10) ∈
        middleTimestamps duration maxDuration count) ∧
    effectiveDuration duration maxDuration * (7/10) ∉
      middleTimestamps duration maxDuration count := by
  refine ⟨?_, ?_, ?_, ?_, ?_, ?_, ?_, ?_, ?_⟩
  · rw [keyframes_eq]
    exact List.perm_insertionSort _ _
  · simp [earlyTimestamps]
  · simp [lateTimestamps]
  · simp [middleTimestamps]
  · exact fun t ht => mem_earlyTimestamps_bounds hd hm ht
  · exact fun t ht => mem_lateTimestamps_bounds hd hm ht
  · exact fun t ht => mem_middleTimestamps_bounds hd hm ht
  · intro hmid
    simp only [middleTimestamps, List.mem_map, List.mem_range]
    exact ⟨0, by omega, by norm_num⟩
  · intro h
    have hb := mem_middleTimestamps_bounds hd hm h
    linarith [hb.2]

/-- Witness for `keyframes_partition_amended`, instantiated at
`duration = 10`, `count = 10`, `maxDuration = 30`. -/
theorem keyframes_partition_amended_witness :
    (0:ℚ) < 10 ∧ (0:ℚ) < 30 ∧
    effectiveDuration 10 30 * (3/10) ∈ middleTimestamps 10 30 10 ∧
    effectiveDuration 10 30 * (7/10) ∉ middleTimestamps 10 30 10 :=
  ⟨by norm_num, by norm_num,
   (keyframes_partition_amended 10 30 10 (by norm_num)
     (by norm_num)).2.2.2.2.2.2.2.1 (by decide),
   (keyframes_partition_amended 10 30 10 (by norm_num)
     (by norm_num)).2.2.2.2.2.2.2.2⟩

/-! ## Helper lemmas about the orchestration model -/

lemma mem_processPlan {env : Env} {ts : List ℚ} {e : EngineEvent}
    (he : e ∈ processPlan env ts) :
    ∃ t ∈ ts, ∃ img, env.extract t = some img ∧ e = .addFrame t img := by
  simp only [processPlan, List.mem_filterMap, extractFrame] at he
  obtain ⟨t, ht, hmap⟩ := he
  cases h : env.extract t with
  | none => rw [h] at hmap; simp at hmap
  | some img =>
      rw [h] at hmap
      simp only [Option.map_some'] at hmap
      exact ⟨t, ht, img, h, Option.some.inj hmap.symm⟩

lemma processPlan_count_getConsensus (env : Env) (ts : List ℚ) :
    (processPlan env ts).count EngineEvent.getConsensus = 0 := by
  rw [List.count_eq_zero]
  intro h
  obtain ⟨t, _, img, _, heq⟩ := mem_processPlan h
  exact EngineEvent.noConfusion heq

lemma processPlan_count_startSession (env : Env) (ts : List ℚ) :
    (processPlan env ts).count EngineEvent.startSession = 0 := by
  rw [List.count_eq_zero]
  intro h
  obtain ⟨t, _, img, _, heq⟩ := mem_processPlan h
  exact EngineEvent.noConfusion heq

lemma submittedTimestamps_processPlan (env : Env) (ts : List ℚ) :
    submittedTimestamps (processPlan env ts) =
      ts.filter (fun t => (env.extract t).isSome) := by
  induction ts with
  | nil => rfl
  | cons t rest ih =>
      cases h : env.extract t with
      | none =>
          simp only [processPlan, submittedTimestamps, extractFrame,
            List.filterMap_cons, h, Option.map_none', List.filter_cons] at *
          simpa [h] using ih
      | some img =>
          simp only [processPlan, submittedTimestamps, extractFrame,
            List.filterMap_cons, h, Option.map_some', List.filter_cons] at *
          simpa [h] using ih

lemma submittedTimestamps_wrap (events : List EngineEvent) :
    submittedTimestamps (EngineEvent.startSession :: events ++
      [EngineEvent.getConsensus]) = submittedTimestamps events := by
  simp [submittedTimestamps, List.filterMap_cons, List.filterMap_append]

lemma ensureVideoReady_ne_notInitialized (video : VideoState) (env : Env) :
    ensureVideoReady video env ≠ .error .notInitialized := by
  unfold ensureVideoReady
  split
  · simp
  · cases env.readyOutcome <;> simp

lemma detectBody_ready (video : VideoState) (isFile : Bool) (c r : ℕ)
    (cfg : VideoConfig) (env : Env)
    (hok : ensureVideoReady video env = .ok ()) :
    detectBody video isFile c r cfg env =
      { engineEvents := EngineEvent.startSession ::
          processPlan env (calculateFrameTimestamps video.duration
            cfg.frameSampleCount cfg.sampleStrategy cfg.maxDuration) ++
          [EngineEvent.getConsensus],
        urlsCreated := c,
        urlsRevoked := r + (if isFile && video.srcIsBlob then 1 else 0),
        result := .ok env.consensus } := by
  unfold detectBody
  rw [hok]

lemma detectBody_result_ne_notInitialized (video : VideoState) (isFile : Bool)
    (c r : ℕ) (cfg : VideoConfig) (env : Env) :
    (detectBody video isFile c r cfg env).result ≠
      Except.error DetectError.notInitialized := by
  unfold detectBody
  cases h : ensureVideoReady video env with
  | error e =>
      simp only []
      intro hcon
      rw [Except.error.injEq] at hcon
      rw [hcon] at h
      exact ensureVideoReady_ne_notInitialized video env h
  | ok u => simp

/-- Decomposition of `detectFromVideo` for an initialized processor when
loading and readiness succeed: the call is the `try` body on the resolved
element, whose duration is `resolvedDuration`. -/
lemma detectFromVideo_ok_decomp (p : Processor) (source : Source)
    (cfg : VideoConfig) (env : Env)
    (hp : p.detector = some ()) (hok : loadAndReadySucceed source env) :
    ∃ video isFile c r,
      video.duration = resolvedDuration source env ∧
      ensureVideoReady video env = .ok () ∧
      detectFromVideo p source cfg env = detectBody video isFile c r cfg env := by
  obtain ⟨d, binit⟩ := p
  simp only at hp
  subst hp
  cases source with
  | element video =>
      exact ⟨video, false, 0, 0, rfl, hok, rfl⟩
  | file =>
      unfold loadAndReadySucceed at hok
      cases hl : env.loadOutcome with
      | canplaythrough dur rs =>
          rw [hl] at hok
          refine ⟨{ duration := dur, readyState := rs, srcIsBlob := true },
            true, 1, 0, ?_, hok, ?_⟩
          · simp [resolvedDuration, hl]
          · simp only [detectFromVideo, loadVideoFile, hl]
      | errorEvent => rw [hl] at hok; exact absurd hok not_false
      | timeout => rw [hl] at hok; exact absurd hok not_false

/-- C2: whenever the frame loop is reached, after the plan is exhausted —
for every extraction oracle, including one where every extraction fails —
`get_video_consensus` appears exactly once in the engine trace, as its
final event, and its value (possibly the explicit no-result `none`) is
what the call returns; no per-frame failure escalates. -/
theorem consensus_retrieved_exactly_once (p : Processor) (source : Source)
    (cfg : VideoConfig) (env : Env)
    (hp : p.detector = some ()) (hok : loadAndReadySucceed source env) :
    ((detectFromVideo p source cfg env).engineEvents).count
      EngineEvent.getConsensus = 1 ∧
    ((detectFromVideo p source cfg env).engineEvents).getLast? =
      some EngineEvent.getConsensus ∧
    (detectFromVideo p source cfg env).result = .ok env.consensus := by
  obtain ⟨video, isFile, c, r, hdur, hready, heq⟩ :=
    detectFromVideo_ok_decomp p source cfg env hp hok
  rw [heq, detectBody_ready video isFile c r cfg env hready]
  refine ⟨?_, ?_, rfl⟩
  · simp [List.count_cons, List.count_append, processPlan_count_getConsensus]
  · have h : (EngineEvent.startSession :: processPlan env
        (calculateFrameTimestamps video.duration cfg.frameSampleCount
          cfg.sampleStrategy cfg.maxDuration) ++
        [EngineEvent.getConsensus]).getLast? = some EngineEvent.getConsensus := by
      rw [List.getLast?_concat]
    exact h

/-- Witness for `consensus_retrieved_exactly_once`: a `File` source in an
environment where every frame extraction fails and the engine reports no
consensus; `get_video_consensus` is still called once and its explicit
no-result value is returned. -/
theorem consensus_retrieved_exactly_once_witness :
    ((detectFromVideo { detector := some (), initialized := true } .file {}
        sampleEnvAllFail).engineEvents).count EngineEvent.getConsensus = 1 ∧
    (detectFromVideo { detector := some (), initialized := true } .file {}
        sampleEnvAllFail).result = .ok none :=
  ⟨(consensus_retrieved_exactly_once _ _ _ _ rfl (by rfl)).1,
   (consensus_retrieved_exactly_once _ _ _ _ rfl (by rfl)).2.2⟩

/-- C7: in every successful call the engine trace is exactly one
session start, then the frame submissions, then one consensus retrieval;
the submitted timestamps are precisely the plan timestamps whose
extraction succeeded, in plan order — a sublist (order-preserving
subsequence) of the scheduler output — and every submitted payload is
the one extracted at its plan timestamp. -/
theorem engine_call_sequence (p : Processor) (source : Source)
    (cfg : VideoConfig) (env : Env)
    (hp : p.detector = some ()) (hok : loadAndReadySucceed source env) :
    (detectFromVideo p source cfg env).engineEvents =
      EngineEvent.startSession ::
        processPlan env (calculateFrameTimestamps (resolvedDuration source env)
          cfg.frameSampleCount cfg.sampleStrategy cfg.maxDuration) ++
        [EngineEvent.getConsensus] ∧
    ((detectFromVideo p source cfg env).engineEvents).count
      EngineEvent.startSession = 1 ∧
    ((detectFromVideo p source cfg env).engineEvents).count
      EngineEvent.getConsensus = 1 ∧
    submittedTimestamps (detectFromVideo p source cfg env).engineEvents =
      (calculateFrameTimestamps (resolvedDuration source env)
        cfg.frameSampleCount cfg.sampleStrategy cfg.maxDuration).filter
        (fun t => (env.extract t).isSome) ∧
    (submittedTimestamps (detectFromVideo p source cfg env).engineEvents).Sublist
      (calculateFrameTimestamps (resolvedDuration source env)
        cfg.frameSampleCount cfg.sampleStrategy cfg.maxDuration) ∧
    (∀ t img, EngineEvent.addFrame t img ∈
        (detectFromVideo p source cfg env).engineEvents →
      env.extract t = some img) := by
  obtain ⟨video, isFile, c, r, hdur, hready, heq⟩ :=
    detectFromVideo_ok_decomp p source cfg env hp hok
  rw [heq, detectBody_ready video isFile c r cfg env hready, hdur]
  refine ⟨rfl, ?_, ?_, ?_, ?_, ?_⟩
  · simp [List.count_cons, List.count_append, processPlan_count_startSession]
  · simp [List.count_cons, List.count_append, processPlan_count_getConsensus]
  · have h : submittedTimestamps (EngineEvent.startSession ::
        processPlan env (calculateFrameTimestamps (resolvedDuration source env)
          cfg.frameSampleCount cfg.sampleStrategy cfg.maxDuration) ++
        [EngineEvent.getConsensus]) =
        (calculateFrameTimestamps (resolvedDuration source env)
          cfg.frameSampleCount cfg.sampleStrategy cfg.maxDuration).filter
          (fun t => (env.extract t).isSome) := by
      rw [submittedTimestamps_wrap, submittedTimestamps_processPlan]
    exact h
  · have h : submittedTimestamps (EngineEvent.startSession ::
        processPlan env (calculateFrameTimestamps (resolvedDuration source env)
          cfg.frameSampleCount cfg.sampleStrategy cfg.maxDuration) ++
        [EngineEvent.getConsensus]) =
        (calculateFrameTimestamps (resolvedDuration source env)
          cfg.frameSampleCount cfg.sampleStrategy cfg.maxDuration).filter
          (fun t => (env.extract t).isSome) := by
      rw [submittedTimestamps_wrap, submittedTimestamps_processPlan]
    rw [h]
    exact List.filter_sublist _
  · intro t img hmem
    rcases List.mem_append.mp hmem with h1 | h2
    · rcases List.mem_cons.mp h1 with h | h
      · exact absurd h (by simp)
      · obtain ⟨t', ht', img', hex, heq'⟩ := mem_processPlan h
        rw [EngineEvent.addFrame.injEq] at heq'
        rw [heq'.1, heq'.2]
        exact hex
    · simp at h2

/-- Witness for `engine_call_sequence`: a `File` source where every
extraction fails; the trace is `[start_session, get_consensus]` and the
submitted-timestamp list is empty, a sublist of the plan. -/
theorem engine_call_sequence_witness :
    (detectFromVideo { detector := some (), initialized := true } .file {}
        sampleEnvAllFail).engineEvents =
      [EngineEvent.startSession, EngineEvent.getConsensus] ∧
    (submittedTimestamps
        (detectFromVideo { detector := some (), initialized := true } .file {}
          sampleEnvAllFail).engineEvents).Sublist
      (calculateFrameTimestamps 10 8 .uniform 30) := by
  have h := engine_call_sequence { detector := some (), initialized := true }
    .file {} sampleEnvAllFail rfl (by rfl)
  refine ⟨?_, ?_⟩
  · rw [h.1]
    simp [processPlan, sampleEnvAllFail, extractFrame]
  · exact h.2.2.2.2.1

/-- C3: for a `File` source on an initialized processor, exactly one
object URL is created and exactly one `revokeObjectURL` occurs on every
exit path — load error, load timeout, after per-frame failures, and
normal successful return (the theorem quantifies over every environment,
so all four paths are covered). -/
theorem blob_url_balanced (p : Processor) (cfg : VideoConfig) (env : Env)
    (hp : p.detector = some ()) :
    (detectFromVideo p .file cfg env).urlsCreated = 1 ∧
    (detectFromVideo p .file cfg env).urlsRevoked = 1 := by
  obtain ⟨d, binit⟩ := p
  simp only at hp
  subst hp
  simp only [detectFromVideo]
  cases hl : env.loadOutcome with
  | canplaythrough dur rs =>
      simp only [loadVideoFile, hl]
      unfold detectBody
      cases h2 : ensureVideoReady
          { duration := dur, readyState := rs, srcIsBlob := true } env with
      | error e => simp
      | ok u => simp
  | errorEvent => simp [loadVideoFile, hl]
  | timeout => simp [loadVideoFile, hl]

/-- Witness for `blob_url_balanced`: a `File` source in a concrete
environment (successful load, all extractions failing). -/
theorem blob_url_balanced_witness :
    (detectFromVideo { detector := some (), initialized := true } .file {}
        sampleEnvAllFail).urlsCreated = 1 ∧
    (detectFromVideo { detector := some (), initialized := true } .file {}
        sampleEnvAllFail).urlsRevoked = 1 :=
  blob_url_balanced { detector := some (), initialized := true } {}
    sampleEnvAllFail rfl

/-- C8: with a null `detector` the call fails immediately with the
not-initialized error, before any URL allocation or engine interaction;
with a non-null `detector` that error is unreachable. -/
theorem not_initialized_guard (p : Processor) (source : Source)
    (cfg : VideoConfig) (env : Env) :
    (p.detector = none →
      detectFromVideo p source cfg env =
        { engineEvents := [], urlsCreated := 0, urlsRevoked := 0,
          result := .error .notInitialized }) ∧
    (p.detector ≠ none →
      (detectFromVideo p source cfg env).result ≠
        Except.error DetectError.notInitialized) := by
  obtain ⟨d, binit⟩ := p
  constructor
  · intro hp
    simp only at hp
    subst hp
    rfl
  · intro hp
    simp only [ne_eq] at hp
    cases d with
    | none => exact absurd rfl hp
    | some u =>
        cases u
        simp only [detectFromVideo]
        cases source with
        | element video =>
            exact detectBody_result_ne_notInitialized video false 0 0 cfg env
        | file =>
            cases hl : env.loadOutcome with
            | canplaythrough dur rs =>
                simp only [loadVideoFile, hl]
                exact detectBody_result_ne_notInitialized _ true 1 0 cfg env
            | errorEvent => simp [loadVideoFile, hl]
            | timeout => simp [loadVideoFile, hl]

/-- Witness for `not_initialized_guard`: an uninitialized processor throws
the not-initialized error with no side effects, and an initialized one
never produces that error in a concrete run. -/
theorem not_initialized_guard_witness :
    detectFromVideo { detector := none, initialized := false } .file {}
        sampleEnvAllFail =
      { engineEvents := [], urlsCreated := 0, urlsRevoked := 0,
        result := .error .notInitialized } ∧
    (detectFromVideo { detector := some (), initialized := true } .file {}
        sampleEnvAllFail).result ≠
      Except.error DetectError.notInitialized :=
  ⟨(not_initialized_guard { detector := none, initialized := false } .file {}
      sampleEnvAllFail).1 rfl,
   (not_initialized_guard { detector := some (), initialized := true } .file {}
      sampleEnvAllFail).2 (by simp)⟩

/-- C9: `setConfig` on a processor whose `detector` is null returns
normally, issues no engine call, and leaves the processor state — which
has no field for a pending configuration — unchanged. -/
theorem setConfig_uninitialized_noop (p : Processor) (config : DetectionConfig)
    (hp : p.detector = none) :
    setConfig p config = .ok (p, []) := by
  unfold setConfig
  rw [hp]

/-- Witness for `setConfig_uninitialized_noop` on a concrete uninitialized
processor and configuration. -/
theorem setConfig_uninitialized_noop_witness :
    setConfig { detector := none, initialized := false }
        { minSaturation := some (1/2) } =
      .ok ({ detector := none, initialized := false }, []) :=
  setConfig_uninitialized_noop { detector := none, initialized := false }
    { minSaturation := some (1/2) } rfl

/-- C6 (code bug in `extractFrame`): at the seek-completion suspension
point, the `onSeeked` (success) and `onError` branches remove only the
`seeked` listener and leave the `error` listener attached when the promise
settles — only the timeout branch removes both — whereas the load-readiness
waits (`ensureVideoReady`, `loadVideoFile`) remove all their listeners on
every branch. -/
theorem extractFrame_error_listener_leak :
    (extractFrameListeners .success).error = 1 ∧
    (extractFrameListeners .success).seeked = 0 ∧
    (extractFrameListeners .errorSignal).error = 1 ∧
    extractFrameListeners .timeout = ListenerSet.empty ∧
    ensureVideoReadyListeners .success = ListenerSet.empty ∧
    ensureVideoReadyListeners .errorSignal = ListenerSet.empty ∧
    ensureVideoReadyListeners .timeout = ListenerSet.empty ∧
    loadVideoFileListeners .success = ListenerSet.empty ∧
    loadVideoFileListeners .errorSignal = ListenerSet.empty ∧
    loadVideoFileListeners .timeout = ListenerSet.empty :=
  ⟨rfl, rfl, rfl, rfl, rfl, rfl, rfl, rfl, rfl, rfl⟩

end ChromaDetect
